import Mathlib

/-!
Verification of the easy-ecs CDK application's configuration resolution and
naming/tagging policy, shallowly embedded from the TypeScript sources:
the bin app (context resolution and stack instantiation), `lib/ecr-stack.ts`,
`lib/ecs-stack.ts` and `lib/observability-stack.ts`.
-/

namespace EasyEcs

/-- JS `String.prototype.toLowerCase` on the ASCII strings this program
handles: lowercase every character. -/
def jsToLowerCase (s : String) : String :=
  ⟨s.data.map Char.toLower⟩

/-- JS `x || d` for an optional string `x`: `undefined` and the empty string
are falsy, any other string is returned verbatim. -/
def jsOrElse (v : Option String) (d : String) : String :=
  match v with
  | some s => if s = "" then d else s
  | none => d

/-- JS `x || d` for an optional number `x`: `undefined` and `0` are falsy.
This models `desiredCount || 1` in `lib/ecs-stack.ts` line 117. -/
def jsOrElseInt (v : Option Int) (d : Int) : Int :=
  match v with
  | some n => if n = 0 then d else n
  | none => d

/-- The project manifest (`package.json`): supplies at least `name` and
`version`, read by the bin app. -/
structure Manifest where
  name : String
  version : String
deriving DecidableEq, Repr

/-- Operator-supplied context overrides (CLI `--context` values), one optional
entry per context key the program reads. -/
structure Overrides where
  project : Option String := none
  version : Option String := none
  environment : Option String := none
  ecrRepoName : Option String := none
  ecrImageTag : Option String := none
  domainName : Option String := none
  desiredCount : Option Int := none
deriving DecidableEq, Repr

/-- The empty override mapping. -/
def emptyOverrides : Overrides := {}

/-- The context visible to a stack through `tryGetContext`, one optional value
per key; `none` models an undefined context value. -/
structure Ctx where
  project : Option String
  environment : Option String
  ecrRepoName : Option String
  ecrImageTag : Option String
  domainName : Option String
  desiredCount : Option Int
deriving DecidableEq, Repr

/-- Modelled from the spec: the repository's `cdk.json` context file is not
under `src/`; per the spec (section 3) and the README, the `ecrRepoName`
context key defaults to `"nginx/nginx"` when the operator supplies no
override. -/
def defaultEcrRepoName : String := "nginx/nginx"

/-- `tryGetContext("ecrRepoName")` as seen by `lib/ecs-stack.ts` line 76: the
operator override when present, else the `cdk.json` default. -/
def tryGetEcrRepoName (c : Ctx) : String :=
  c.ecrRepoName.getD defaultEcrRepoName

/-- Failure outcomes observable from a stack constructor. `typeError` models
the JS `TypeError` thrown when `.toLowerCase()` is invoked on an undefined
context value; its field records the offending context key.
`configurationError` follows the spec's words (section 7): the source defines
no such error, and the constructor exists only so the spec's failure claims
can be stated and compared against the code's behaviour. -/
inductive StackError where
  | typeError (key : String)
  | configurationError (field : String)
deriving DecidableEq, Repr

/-- The configuration-relevant outputs of the `EcrStack` constructor. -/
structure EcrRecord where
  projectTag : String
  environmentTag : String
  repositoryName : String
deriving DecidableEq, Repr

/-- The configuration-relevant outputs of the `EcsStack` constructor. -/
structure EcsRecord where
  projectTag : String
  environmentTag : String
  containerName : String
  repoName : String
  imageTag : String
  desiredCount : Int
deriving DecidableEq, Repr

/-- The configuration-relevant outputs of the `ObservabilityStack`
constructor. -/
structure ObsRecord where
  projectTag : String
  environmentTag : String
  resourceGroupName : String
  queryProjectValues : List String
  queryEnvironmentValues : List String
  appMonitorDomain : String
  appMonitorName : String
deriving DecidableEq, Repr

/-- The `EcrStack` constructor, `lib/ecr-stack.ts` lines 8-29, in source
evaluation order: read `project` and `environment`, tag with their lowercased
values (a JS `TypeError` when a key is undefined, `project` dereferenced
first), then name the repository by concatenating the environment verbatim, a
dash, the lowercased project, and the literal `-ecr-repository` suffix. -/
def ecrStackRun (c : Ctx) : Except StackError EcrRecord :=
  match c.project with
  | none => .error (.typeError "project")
  | some project =>
    match c.environment with
    | none => .error (.typeError "environment")
    | some environment =>
      .ok { projectTag := jsToLowerCase project
            environmentTag := jsToLowerCase environment
            repositoryName :=
              environment ++ "-" ++ jsToLowerCase project ++ "-ecr-repository" }

/-- The `EcsStack` constructor, `lib/ecs-stack.ts` lines 27-120: read
`project`, `environment` and `desiredCount`; tag with lowercased project and
environment (TypeError on undefined); read `ecrRepoName` and `ecrImageTag`
(defaulted to "latest" by JS or-else); name the container by lowercasing the
whole environment-project-container template; pass `desiredCount || 1` to the
Fargate service. -/
def ecsStackRun (c : Ctx) : Except StackError EcsRecord :=
  match c.project with
  | none => .error (.typeError "project")
  | some project =>
    match c.environment with
    | none => .error (.typeError "environment")
    | some environment =>
      .ok { projectTag := jsToLowerCase project
            environmentTag := jsToLowerCase environment
            containerName :=
              jsToLowerCase (environment ++ "-" ++ project ++ "-container")
            repoName := tryGetEcrRepoName c
            imageTag := jsOrElse c.ecrImageTag "latest"
            desiredCount := jsOrElseInt c.desiredCount 1 }

/-- The `ObservabilityStack` constructor, `lib/observability-stack.ts` lines
181-302: read `project`, `environment`, `domainName`; tag with lowercased
project and environment (TypeError on undefined); name the resource group by
lowercasing the environment-project template; build the resource-group tag
query with the project and environment values verbatim; give the app monitor
the domain `domainName || "localhost"` and the lowercased project name. -/
def observabilityStackRun (c : Ctx) : Except StackError ObsRecord :=
  match c.project with
  | none => .error (.typeError "project")
  | some project =>
    match c.environment with
    | none => .error (.typeError "environment")
    | some environment =>
      .ok { projectTag := jsToLowerCase project
            environmentTag := jsToLowerCase environment
            resourceGroupName := jsToLowerCase (environment ++ "-" ++ project)
            queryProjectValues := [project]
            queryEnvironmentValues := [environment]
            appMonitorDomain := jsOrElse c.domainName "localhost"
            appMonitorName := jsToLowerCase project }

/-- Bin-app resolution of the `project` context (bin app lines 16-19): the
explicit context value when truthy (present and non-empty), else the
manifest's `name`. -/
def resolveProject (o : Option String) (m : Manifest) : String :=
  match o with
  | some s => if s = "" then m.name else s
  | none => m.name

/-- Bin-app resolution of the `version` context (bin app lines 21-24). -/
def resolveVersion (o : Option String) (m : Manifest) : String :=
  match o with
  | some s => if s = "" then m.version else s
  | none => m.version

/-- Bin-app resolution of the `environment` context (bin app lines 26-29):
the explicit value when truthy, else the literal default "dev". -/
def resolveEnvironment (o : Option String) : String :=
  match o with
  | some s => if s = "" then "dev" else s
  | none => "dev"

/-- The ECR stack id, bin app line 31: the whole template lowercased. -/
def ecrStackId (environment project : String) : String :=
  jsToLowerCase (environment ++ "-" ++ project ++ "-ecr")

/-- The ECS stack id, bin app line 39. -/
def ecsStackId (environment project : String) : String :=
  jsToLowerCase (environment ++ "-" ++ project ++ "-ecs")

/-- The observability stack id, bin app line 49. -/
def observabilityStackId (environment project : String) : String :=
  jsToLowerCase (environment ++ "-" ++ project ++ "-observability")

/-- The context each stack sees after the bin app's `setContext` calls:
`project` and `environment` are always defined there, the remaining keys pass
through from the operator overrides. -/
def appContext (o : Overrides) (m : Manifest) : Ctx :=
  { project := some (resolveProject o.project m)
    environment := some (resolveEnvironment o.environment)
    ecrRepoName := o.ecrRepoName
    ecrImageTag := o.ecrImageTag
    domainName := o.domainName
    desiredCount := o.desiredCount }

/-- The spec's resolved configuration record (section 3). -/
structure ConfigRecord where
  project : String
  environment : String
  version : String
  registryRepoName : String
  registryImageTag : String
  monitoredDomain : String
  desiredInstanceCount : Int
deriving DecidableEq, Repr

/-- The spec's `resolve(explicitOverrides, manifest)`: the bin app's context
resolution followed by the per-stack context reads, collecting every resolved
field of the configuration record. -/
def resolve (o : Overrides) (m : Manifest) : Except StackError ConfigRecord :=
  let c := appContext o m
  match ecsStackRun c, observabilityStackRun c with
  | .ok ecs, .ok obs =>
      .ok { project := resolveProject o.project m
            environment := resolveEnvironment o.environment
            version := resolveVersion o.version m
            registryRepoName := ecs.repoName
            registryImageTag := ecs.imageTag
            monitoredDomain := obs.appMonitorDomain
            desiredInstanceCount := ecs.desiredCount }
  | .error e, _ => .error e
  | .ok _, .error e => .error e

/-- The spec's canonical identifier form (section 4.1), stated from its words
for comparison with the code-derived names: lowercase environment, dash,
lowercase project, dash, unit suffix. -/
def canonicalId (environment project suffix : String) : String :=
  jsToLowerCase environment ++ "-" ++ jsToLowerCase project ++ "-" ++ suffix

/-- A string is all-lowercase when lowercasing fixes every character. -/
def IsAllLowercase (s : String) : Prop :=
  ∀ c ∈ s.data, Char.toLower c = c

/-! Helper lemmas about the embedded string operations. -/

theorem jsToLowerCase_append (a b : String) :
    jsToLowerCase (a ++ b) = jsToLowerCase a ++ jsToLowerCase b := by
  apply String.ext
  simp [jsToLowerCase, String.data_append]

theorem string_append_left_cancel {a b c : String}
    (h : a ++ b = a ++ c) : b = c := by
  apply String.ext
  have hd := congrArg String.data h
  simp only [String.data_append] at hd
  exact List.append_cancel_left hd

theorem string_append_right_cancel {a b c : String}
    (h : a ++ c = b ++ c) : a = b := by
  apply String.ext
  have hd := congrArg String.data h
  simp only [String.data_append] at hd
  exact List.append_cancel_right hd

theorem list_map_eq_self_iff (f : Char → Char) (l : List Char) :
    l.map f = l ↔ ∀ c ∈ l, f c = c := by
  induction l with
  | nil => simp
  | cons x xs ih => simp [ih]

theorem jsToLowerCase_eq_self_iff (s : String) :
    jsToLowerCase s = s ↔ IsAllLowercase s := by
  rw [String.ext_iff]
  exact list_map_eq_self_iff Char.toLower s.data

theorem stackTemplate_lower (e p s : String) (hs : jsToLowerCase s = s) :
    jsToLowerCase (e ++ "-" ++ p ++ s) =
      jsToLowerCase e ++ "-" ++ jsToLowerCase p ++ s := by
  have h1 : jsToLowerCase "-" = "-" := by decide
  simp only [jsToLowerCase_append, h1, hs]

theorem canonicalId_merge (e p t : String) :
    canonicalId e p t =
      jsToLowerCase e ++ "-" ++ jsToLowerCase p ++ ("-" ++ t) := by
  unfold canonicalId
  rw [String.append_assoc]

/-! Theorems settling the claims. -/

/-- C2: with the empty override mapping and the manifest carrying name "svc"
and version "1.0.0", resolution yields environment "dev", registryRepoName
"nginx/nginx", registryImageTag "latest", monitoredDomain "localhost" and
desiredInstanceCount 1, each field populated by its default. -/
theorem resolve_empty_overrides_defaults :
    resolve emptyOverrides ⟨"svc", "1.0.0"⟩ =
      Except.ok { project := "svc", environment := "dev", version := "1.0.0",
                  registryRepoName := "nginx/nginx", registryImageTag := "latest",
                  monitoredDomain := "localhost", desiredInstanceCount := 1 } := by
  rfl

/-- C1 counterexample: with the registryRepoName override "badname" (no
namespace separator) resolution does not raise any error; it produces a
record carrying "badname" verbatim, refuting the ConfigurationError claim at
the input the claim itself names. -/
theorem resolve_badname_produces_record :
    resolve { emptyOverrides with ecrRepoName := some "badname" } ⟨"svc", "1.0.0"⟩ =
      Except.ok { project := "svc", environment := "dev", version := "1.0.0",
                  registryRepoName := "badname", registryImageTag := "latest",
                  monitoredDomain := "localhost", desiredInstanceCount := 1 } := by
  rfl

/-- C1 (amended): resolution performs no field validation and never raises a
ConfigurationError — for every overrides and manifest it produces a record —
and with the registryRepoName override "badname" the produced record carries
"badname" unchanged. -/
theorem resolve_no_validation (o : Overrides) (m : Manifest) :
    (∃ r, resolve o m = Except.ok r) ∧
    (∀ f, resolve o m ≠ Except.error (StackError.configurationError f)) ∧
    (∃ r, resolve { o with ecrRepoName := some "badname" } m = Except.ok r ∧
      r.registryRepoName = "badname") := by
  refine ⟨⟨_, rfl⟩, ?_, ⟨_, rfl, rfl⟩⟩
  intro f h
  exact Except.noConfusion h

/-- C1 witness: the amended theorem applied at a concrete input. -/
theorem resolve_no_validation_witness :
    ∃ r, resolve emptyOverrides ⟨"app", "0.1.0"⟩ = Except.ok r :=
  (resolve_no_validation emptyOverrides ⟨"app", "0.1.0"⟩).1

/-- C3 counterexample: the JS or-else fallback on line 117 maps an explicit
desiredCount override of 0 to the default 1, so resolution with the override
0 yields desiredInstanceCount 1, not 0. -/
theorem desiredCount_zero_resolves_to_one :
    jsOrElseInt (some 0) 1 = 1 ∧ ¬ jsOrElseInt (some 0) 1 = 0 ∧
    resolve { emptyOverrides with desiredCount := some 0 } ⟨"svc", "1.0.0"⟩ =
      Except.ok { project := "svc", environment := "dev", version := "1.0.0",
                  registryRepoName := "nginx/nginx", registryImageTag := "latest",
                  monitoredDomain := "localhost", desiredInstanceCount := 1 } :=
  ⟨rfl, by decide, rfl⟩

/-- C3 (amended): the resolved desired instance count is the explicit
override when it is present and nonzero, and the default 1 otherwise; in
particular an explicit override of 0 resolves to 1, because the JS or-else
fallback treats 0 as absent. -/
theorem desiredCount_precedence (n : Int) (o : Overrides) (m : Manifest) :
    (n ≠ 0 → ∃ r, resolve { o with desiredCount := some n } m = Except.ok r ∧
      r.desiredInstanceCount = n) ∧
    (∃ r, resolve { o with desiredCount := none } m = Except.ok r ∧
      r.desiredInstanceCount = 1) ∧
    (∃ r, resolve { o with desiredCount := some 0 } m = Except.ok r ∧
      r.desiredInstanceCount = 1) := by
  refine ⟨?_, ⟨_, rfl, rfl⟩, ⟨_, rfl, rfl⟩⟩
  intro hn
  refine ⟨_, rfl, ?_⟩
  simp [resolve, appContext, ecsStackRun, jsOrElseInt, hn]

/-- C3 witness: the amended theorem applied at the nonzero override 5. -/
theorem desiredCount_precedence_witness :
    ∃ r, resolve { emptyOverrides with desiredCount := some 5 } ⟨"svc", "1.0.0"⟩ =
      Except.ok r ∧ r.desiredInstanceCount = 5 :=
  (desiredCount_precedence 5 emptyOverrides ⟨"svc", "1.0.0"⟩).1 (by decide)

theorem template_canonical (e p t : String)
    (ht : jsToLowerCase ("-" ++ t) = "-" ++ t) :
    jsToLowerCase (e ++ "-" ++ p ++ ("-" ++ t)) = canonicalId e p t := by
  rw [canonicalId_merge]
  exact stackTemplate_lower e p ("-" ++ t) ht

/-- C4 counterexample: at environment "Prod" and project "app" the ECR stack
names the repository "Prod-app-ecr-repository", while the canonical lowercase
form is "prod-app-ecr-repository"; the two differ, refuting the claim for the
ECR repository name. -/
theorem ecr_repositoryName_not_canonical :
    ecrStackRun ⟨some "app", some "Prod", none, none, none, none⟩ =
      Except.ok { projectTag := "app", environmentTag := "prod",
                  repositoryName := "Prod-app-ecr-repository" } ∧
    canonicalId "Prod" "app" "ecr-repository" = "prod-app-ecr-repository" ∧
    ¬ ("Prod-app-ecr-repository" : String) = "prod-app-ecr-repository" :=
  ⟨rfl, by decide, by decide⟩

/-- C4 (amended): every bin-app stack id and the ECS container name equal the
spec's canonical lowercase form for all inputs; the ECR repository name
instead uses the environment verbatim, so it equals environment, dash,
lowercased project, "-ecr-repository", and agrees with the canonical form
exactly when the environment is already all-lowercase. -/
theorem derived_names_canonical (e p : String) :
    ecrStackId e p = canonicalId e p "ecr" ∧
    ecsStackId e p = canonicalId e p "ecs" ∧
    observabilityStackId e p = canonicalId e p "observability" ∧
    (∃ r, ecsStackRun ⟨some p, some e, none, none, none, none⟩ = Except.ok r ∧
      r.containerName = canonicalId e p "container") ∧
    (∃ r, ecrStackRun ⟨some p, some e, none, none, none, none⟩ = Except.ok r ∧
      r.repositoryName = e ++ "-" ++ jsToLowerCase p ++ "-ecr-repository" ∧
      (r.repositoryName = canonicalId e p "ecr-repository" ↔ IsAllLowercase e)) := by
  have hl : ("-" ++ "ecr-repository" : String) = "-ecr-repository" := by decide
  have hiff : (e ++ "-" ++ jsToLowerCase p ++ "-ecr-repository" =
      canonicalId e p "ecr-repository") ↔ IsAllLowercase e := by
    constructor
    · intro h
      rw [canonicalId_merge, hl] at h
      have h1 := string_append_right_cancel h
      have h2 := string_append_right_cancel h1
      have h3 := string_append_right_cancel h2
      exact (jsToLowerCase_eq_self_iff e).mp h3.symm
    · intro h
      rw [canonicalId_merge, hl, (jsToLowerCase_eq_self_iff e).mpr h]
  refine ⟨template_canonical e p "ecr" (by decide),
          template_canonical e p "ecs" (by decide),
          template_canonical e p "observability" (by decide),
          ⟨_, rfl, template_canonical e p "container" (by decide)⟩,
          ⟨_, rfl, rfl, hiff⟩⟩

/-- C5: all three stack constructors apply the identical tag set, project and
environment each lowercased, for every input. -/
theorem tags_uniform_across_stacks (p e : String) :
    ∃ r1 r2 r3,
      ecrStackRun ⟨some p, some e, none, none, none, none⟩ = Except.ok r1 ∧
      ecsStackRun ⟨some p, some e, none, none, none, none⟩ = Except.ok r2 ∧
      observabilityStackRun ⟨some p, some e, none, none, none, none⟩ = Except.ok r3 ∧
      r1.projectTag = jsToLowerCase p ∧ r1.environmentTag = jsToLowerCase e ∧
      r2.projectTag = r1.projectTag ∧ r2.environmentTag = r1.environmentTag ∧
      r3.projectTag = r1.projectTag ∧ r3.environmentTag = r1.environmentTag :=
  ⟨_, _, _, rfl, rfl, rfl, rfl, rfl, rfl, rfl, rfl, rfl⟩

/-- C6: the observability resource-group query carries the project and
environment values verbatim while the applied tags are lowercased, so a query
value equals the corresponding applied tag value exactly when the input is
already all-lowercase. -/
theorem resourceGroup_query_case_sensitivity (p e : String) :
    ∃ r, observabilityStackRun ⟨some p, some e, none, none, none, none⟩ =
      Except.ok r ∧
      r.queryProjectValues = [p] ∧ r.projectTag = jsToLowerCase p ∧
      r.queryEnvironmentValues = [e] ∧ r.environmentTag = jsToLowerCase e ∧
      (r.queryProjectValues = [r.projectTag] ↔ IsAllLowercase p) ∧
      (r.queryEnvironmentValues = [r.environmentTag] ↔ IsAllLowercase e) := by
  have hp : ([p] = [jsToLowerCase p]) ↔ IsAllLowercase p := by
    constructor
    · intro h
      injection h with h1 _
      exact (jsToLowerCase_eq_self_iff p).mp h1.symm
    · intro h
      rw [(jsToLowerCase_eq_self_iff p).mpr h]
  have he : ([e] = [jsToLowerCase e]) ↔ IsAllLowercase e := by
    constructor
    · intro h
      injection h with h1 _
      exact (jsToLowerCase_eq_self_iff e).mp h1.symm
    · intro h
      rw [(jsToLowerCase_eq_self_iff e).mpr h]
  exact ⟨_, rfl, rfl, rfl, rfl, rfl, hp, he⟩

/-- C7: the resolved project is the explicit override whenever it is present
and non-empty (verbatim, case preserved), and the manifest name otherwise;
with no override and manifest name "MyApp" the project resolves to "MyApp"
and the derived stack id is "dev-myapp-ecs"; derived ids built from an
override use its lowercased form. -/
theorem project_precedence (s : String) (m : Manifest) :
    (s ≠ "" → resolveProject (some s) m = s) ∧
    resolveProject none m = m.name ∧
    resolveProject (some "") m = m.name ∧
    resolveProject none ⟨"MyApp", "2.3.0"⟩ = "MyApp" ∧
    ecsStackId (resolveEnvironment none) (resolveProject none ⟨"MyApp", "2.3.0"⟩) =
      "dev-myapp-ecs" ∧
    (s ≠ "" → ecrStackId "dev" (resolveProject (some s) m) =
      "dev-" ++ jsToLowerCase s ++ "-ecr") := by
  refine ⟨?_, rfl, rfl, rfl, by decide, ?_⟩
  · intro h
    simp [resolveProject, h]
  · intro h
    have h1 : resolveProject (some s) m = s := by simp [resolveProject, h]
    rw [h1]
    unfold ecrStackId
    rw [stackTemplate_lower "dev" s "-ecr" (by decide)]
    have h2 : jsToLowerCase "dev" = "dev" := by decide
    have h3 : ("dev" ++ "-" : String) = "dev-" := by decide
    rw [h2, h3]

/-- C7 witness: the precedence theorem applied at the non-empty override
"MyApp". -/
theorem project_precedence_witness :
    resolveProject (some "MyApp") ⟨"pkg", "1.0.0"⟩ = "MyApp" :=
  (project_precedence "MyApp" ⟨"pkg", "1.0.0"⟩).1 (by decide)

/-- C8: resolution and the stack constructors are deterministic — identical
inputs yield identical records — and for environment "prod" with project
"Shop" the applied tag pair is project "shop", environment "prod", while all
three stack ids start with "prod-shop-". -/
theorem resolve_deterministic (o : Overrides) (m : Manifest) (c : Ctx) :
    resolve o m = resolve o m ∧
    ecrStackRun c = ecrStackRun c ∧
    ecsStackRun c = ecsStackRun c ∧
    observabilityStackRun c = observabilityStackRun c ∧
    (∃ r, ecrStackRun ⟨some "Shop", some "prod", none, none, none, none⟩ =
      Except.ok r ∧ r.projectTag = "shop" ∧ r.environmentTag = "prod") ∧
    ecrStackId "prod" "Shop" = "prod-shop-" ++ "ecr" ∧
    ecsStackId "prod" "Shop" = "prod-shop-" ++ "ecs" ∧
    observabilityStackId "prod" "Shop" = "prod-shop-" ++ "observability" :=
  ⟨rfl, rfl, rfl, rfl, ⟨_, rfl, by decide, by decide⟩,
   by decide, by decide, by decide⟩

/-- C9: for every environment and project, the three derived stack ids are
pairwise distinct strings. -/
theorem stack_ids_pairwise_distinct (e p : String) :
    ecrStackId e p ≠ ecsStackId e p ∧
    ecrStackId e p ≠ observabilityStackId e p ∧
    ecsStackId e p ≠ observabilityStackId e p := by
  have hecr : ecrStackId e p =
      jsToLowerCase e ++ "-" ++ jsToLowerCase p ++ "-ecr" :=
    stackTemplate_lower e p "-ecr" (by decide)
  have hecs : ecsStackId e p =
      jsToLowerCase e ++ "-" ++ jsToLowerCase p ++ "-ecs" :=
    stackTemplate_lower e p "-ecs" (by decide)
  have hobs : observabilityStackId e p =
      jsToLowerCase e ++ "-" ++ jsToLowerCase p ++ "-observability" :=
    stackTemplate_lower e p "-observability" (by decide)
  refine ⟨?_, ?_, ?_⟩
  · intro h
    rw [hecr, hecs] at h
    exact absurd (string_append_left_cancel h) (by decide)
  · intro h
    rw [hecr, hobs] at h
    exact absurd (string_append_left_cancel h) (by decide)
  · intro h
    rw [hecs, hobs] at h
    exact absurd (string_append_left_cancel h) (by decide)

/-- C9 witness: the distinctness theorem applied at a concrete input. -/
theorem stack_ids_pairwise_distinct_witness :
    ecrStackId "dev" "app" ≠ ecsStackId "dev" "app" :=
  (stack_ids_pairwise_distinct "dev" "app").1

theorem run_error_aux {α : Type} {x : Except StackError α} {k : String}
    (hx : x = Except.error (StackError.typeError k)) :
    (∃ k2, x = Except.error (StackError.typeError k2)) ∧
    (∀ f, x ≠ Except.error (StackError.configurationError f)) ∧
    (∀ r, x ≠ Except.ok r) := by
  subst hx
  refine ⟨⟨k, rfl⟩, ?_, ?_⟩ <;> intro y hy <;> simp at hy

/-- C10: when the project or environment context key is undefined at stack
construction (standalone synthesis without the bin app), both the ECR and the
ECS constructors fail with a JS TypeError at the lowercasing dereference —
never with a ConfigurationError — and produce no record: the in-stack
resolution is not total over such inputs. -/
theorem standalone_stack_undefined_context (c : Ctx)
    (h : c.project = none ∨ c.environment = none) :
    (∃ k, ecrStackRun c = Except.error (StackError.typeError k)) ∧
    (∀ f, ecrStackRun c ≠ Except.error (StackError.configurationError f)) ∧
    (∀ r, ecrStackRun c ≠ Except.ok r) ∧
    (∃ k, ecsStackRun c = Except.error (StackError.typeError k)) ∧
    (∀ f, ecsStackRun c ≠ Except.error (StackError.configurationError f)) ∧
    (∀ r, ecsStackRun c ≠ Except.ok r) := by
  have key : ∃ k1, ecrStackRun c = Except.error (StackError.typeError k1) ∧
      ecsStackRun c = Except.error (StackError.typeError k1) := by
    rcases hp : c.project with _ | p
    · exact ⟨"project", by simp [ecrStackRun, hp], by simp [ecsStackRun, hp]⟩
    · rcases henv : c.environment with _ | ev
      · exact ⟨"environment", by simp [ecrStackRun, hp, henv],
               by simp [ecsStackRun, hp, henv]⟩
      · rcases h with h | h
        · rw [hp] at h
          exact absurd h (by simp)
        · rw [henv] at h
          exact absurd h (by simp)
  obtain ⟨k, h1, h2⟩ := key
  obtain ⟨a1, a2, a3⟩ := run_error_aux h1
  obtain ⟨b1, b2, b3⟩ := run_error_aux h2
  exact ⟨a1, a2, a3, b1, b2, b3⟩

/-- C10 witness: the theorem applied to the fully undefined context. -/
theorem standalone_stack_undefined_context_witness :
    (∃ k, ecrStackRun ⟨none, none, none, none, none, none⟩ =
      Except.error (StackError.typeError k)) ∧
    (∀ f, ecrStackRun ⟨none, none, none, none, none, none⟩ ≠
      Except.error (StackError.configurationError f)) ∧
    (∀ r, ecrStackRun ⟨none, none, none, none, none, none⟩ ≠ Except.ok r) ∧
    (∃ k, ecsStackRun ⟨none, none, none, none, none, none⟩ =
      Except.error (StackError.typeError k)) ∧
    (∀ f, ecsStackRun ⟨none, none, none, none, none, none⟩ ≠
      Except.error (StackError.configurationError f)) ∧
    (∀ r, ecsStackRun ⟨none, none, none, none, none, none⟩ ≠ Except.ok r) :=
  standalone_stack_undefined_context ⟨none, none, none, none, none, none⟩
    (Or.inl rfl)

end EasyEcs
